import Mathlib

/-!
Verification development for the mcp-client UI components
(`src/components/mcp-client/ServerManagement.tsx`, `ServerFormModal.tsx`,
`ToolsExplorer.tsx`).  The TypeScript/React components are shallowly embedded:
pure helper functions become Lean functions, JavaScript values that may be
null/undefined become `Option`, JS truthiness and string methods are modelled
explicitly, and the async action/submit handlers become total functions from
the collaborator's outcome (`Except` for a promise that resolved or rejected)
to the resulting UI state and notifications.
-/

/-- Model of JavaScript `String.prototype.toUpperCase` restricted to ASCII,
as applied to the status strings in `ServerManagement.tsx`. -/
def jsToUpper (s : String) : String :=
  String.mk (s.data.map Char.toUpper)

/-- Model of JavaScript `String.prototype.toLowerCase` restricted to ASCII,
as applied to tool names / search text in `ToolsExplorer.tsx`. -/
def jsToLower (s : String) : String :=
  String.mk (s.data.map Char.toLower)

/-- Character-list helper: the pattern (second argument) occurs at the very
start of the text (first argument). -/
def charsLead : List Char → List Char → Bool
  | _, [] => true
  | [], _ :: _ => false
  | c :: cs, p :: ps => c == p && charsLead cs ps

/-- Character-list helper: the pattern occurs somewhere in the text.  Mirrors
the semantics of JavaScript `String.prototype.includes` (the empty pattern is
contained in every string). -/
def charsContain : List Char → List Char → Bool
  | [], pat => pat.isEmpty
  | c :: rest, pat => charsLead (c :: rest) pat || charsContain rest pat

/-- Model of JavaScript `s.includes(pat)` for strings. -/
def strIncludes (s pat : String) : Bool :=
  charsContain s.data pat.data

/-- JSON values, as produced by `JSON.parse` / consumed by `JSON.stringify`
in the components (numbers restricted to integers, which covers every value
appearing in this code base's schemas). -/
inductive Json where
  | jnull
  | jbool (b : Bool)
  | jnum (n : Int)
  | jstr (s : String)
  | jarr (elems : List Json)
  | jobj (fields : List (String × Json))

/-- Skip JSON whitespace. -/
def skipWs : List Char → List Char
  | c :: cs =>
      if c == ' ' || c == '\t' || c == '\n' || c == '\r' then skipWs cs
      else c :: cs
  | [] => []

/-- Parse the body of a JSON string literal (after the opening quote),
returning the decoded characters and the input after the closing quote. -/
def parseStrBody : List Char → Option (List Char × List Char)
  | [] => none
  | c :: cs =>
      if c == '"' then some ([], cs)
      else if c == '\\' then
        match cs with
        | [] => none
        | e :: cs' =>
            let dec : Option Char :=
              if e == '"' then some '"'
              else if e == '\\' then some '\\'
              else if e == '/' then some '/'
              else if e == 'n' then some '\n'
              else if e == 't' then some '\t'
              else if e == 'r' then some '\r'
              else none
            match dec with
            | none => none
            | some d =>
                match parseStrBody cs' with
                | none => none
                | some (body, rest) => some (d :: body, rest)
      else
        match parseStrBody cs with
        | none => none
        | some (body, rest) => some (c :: body, rest)

/-- Parse a run of decimal digits into a natural number, returning the
accumulated value and the remaining input. -/
def parseDigits : List Char → Nat → Nat × List Char
  | [], acc => (acc, [])
  | c :: cs, acc =>
      if c.isDigit then parseDigits cs (acc * 10 + (c.toNat - '0'.toNat))
      else (acc, c :: cs)

mutual

/-- Fuel-indexed recursive-descent parser for a JSON value, modelling
`JSON.parse` as used by `parseSchema` in `ToolsExplorer.tsx`. -/
def parseVal : Nat → List Char → Option (Json × List Char)
  | 0, _ => none
  | fuel + 1, cs =>
      match skipWs cs with
      | [] => none
      | c :: rest =>
          if c == 'n' then
            match rest with
            | 'u' :: 'l' :: 'l' :: rest' => some (Json.jnull, rest')
            | _ => none
          else if c == 't' then
            match rest with
            | 'r' :: 'u' :: 'e' :: rest' => some (Json.jbool true, rest')
            | _ => none
          else if c == 'f' then
            match rest with
            | 'a' :: 'l' :: 's' :: 'e' :: rest' => some (Json.jbool false, rest')
            | _ => none
          else if c == '"' then
            match parseStrBody rest with
            | none => none
            | some (body, rest') => some (Json.jstr (String.mk body), rest')
          else if c == '[' then
            match skipWs rest with
            | ']' :: rest' => some (Json.jarr [], rest')
            | rest' =>
                match parseItems fuel rest' with
                | none => none
                | some (elems, rest'') => some (Json.jarr elems, rest'')
          else if c == '\x7b' then
            match skipWs rest with
            | '\x7d' :: rest' => some (Json.jobj [], rest')
            | rest' =>
                match parseFields fuel rest' with
                | none => none
                | some (fs, rest'') => some (Json.jobj fs, rest'')
          else if c == '-' then
            match rest with
            | d :: _ =>
                if d.isDigit then
                  match parseDigits rest 0 with
                  | (n, rest') => some (Json.jnum (-(n : Int)), rest')
                else none
            | [] => none
          else if c.isDigit then
            match parseDigits (c :: rest) 0 with
            | (n, rest') => some (Json.jnum (n : Int), rest')
          else none

/-- Parse the comma-separated elements of a non-empty JSON array, up to and
including the closing bracket. -/
def parseItems : Nat → List Char → Option (List Json × List Char)
  | 0, _ => none
  | fuel + 1, cs =>
      match parseVal fuel cs with
      | none => none
      | some (v, rest) =>
          match skipWs rest with
          | ',' :: rest' =>
              match parseItems fuel rest' with
              | none => none
              | some (vs, rest'') => some (v :: vs, rest'')
          | ']' :: rest' => some ([v], rest')
          | _ => none

/-- Parse the comma-separated `"key": value` fields of a non-empty JSON
object, up to and including the closing brace. -/
def parseFields : Nat → List Char → Option (List (String × Json) × List Char)
  | 0, _ => none
  | fuel + 1, cs =>
      match skipWs cs with
      | '"' :: rest =>
          match parseStrBody rest with
          | none => none
          | some (key, rest') =>
              match skipWs rest' with
              | ':' :: rest'' =>
                  match parseVal fuel rest'' with
                  | none => none
                  | some (v, rest3) =>
                      match skipWs rest3 with
                      | ',' :: rest4 =>
                          match parseFields fuel rest4 with
                          | none => none
                          | some (fs, rest5) =>
                              some ((String.mk key, v) :: fs, rest5)
                      | '\x7d' :: rest4 => some ([(String.mk key, v)], rest4)
                      | _ => none
              | _ => none
      | _ => none

end

/-- Model of `JSON.parse(s)`: `some` of the parsed value when `s` is valid
JSON (with nothing but whitespace after the value), `none` when parsing
fails (the thrown `SyntaxError`). -/
def jsonParse (s : String) : Option Json :=
  match parseVal (2 * s.length + 2) s.data with
  | none => none
  | some (v, rest) =>
      match skipWs rest with
      | [] => some v
      | _ => none

/-- The value of a tool's `schema` property, classified the way
`parseSchema` in `ToolsExplorer.tsx` classifies JavaScript values:
a non-null structured value (`typeof schema === 'object' && schema !== null`),
a string, `null`, or any other primitive (number, boolean, undefined). -/
inductive SchemaValue where
  | objectVal (j : Json)
  | stringVal (s : String)
  | nullVal
  | otherVal

/-- `parseSchema` from `ToolsExplorer.tsx`: a structured value is returned
as-is; a string is `JSON.parse`d, with a parse failure caught and turned
into `null`; everything else yields `null`.  `none` models the JS `null`
return (no schema section rendered). -/
def parseSchema : SchemaValue → Option Json
  | SchemaValue.objectVal j => some j
  | SchemaValue.stringVal s => jsonParse s
  | SchemaValue.nullVal => none
  | SchemaValue.otherVal => none

/-- A tool descriptor as consumed by `ToolsExplorer.tsx`: `name`,
`description` and a `schema` value. -/
structure Tool where
  name : String
  description : String
  schema : SchemaValue

/-- The raw `server.tools` property before the `Array.isArray` guard on
line 41 of `ToolsExplorer.tsx`: an array of tools, or any non-array
JavaScript value (absent/undefined, null, a plain object, a string). -/
inductive ToolsValue where
  | arrVal (ts : List Tool)
  | absent
  | nullVal
  | objVal
  | strVal (s : String)

/-- `const tools = Array.isArray(server.tools) ? server.tools : []`
(`ToolsExplorer.tsx` line 41). -/
def toolsOf : ToolsValue → List Tool
  | ToolsValue.arrVal ts => ts
  | _ => []

/-- The ToolsExplorer filter dropdown selection. -/
inductive FilterStatus where
  | all
  | available
  | unavailable
deriving DecidableEq

/-- The search predicate inside `filteredTools`: the tool's name or
description, lower-cased, contains the lower-cased search term. -/
def matchesSearch (tool : Tool) (searchTerm : String) : Bool :=
  strIncludes (jsToLower tool.name) (jsToLower searchTerm) ||
    strIncludes (jsToLower tool.description) (jsToLower searchTerm)

/-- The filter predicate inside `filteredTools`:
`filterStatus === 'all' || filterStatus === 'available'`. -/
def matchesFilter (filterStatus : FilterStatus) : Bool :=
  filterStatus == FilterStatus.all || filterStatus == FilterStatus.available

/-- `filteredTools` from `ToolsExplorer.tsx` lines 43-51. -/
def filteredTools (tools : List Tool) (searchTerm : String)
    (filterStatus : FilterStatus) : List Tool :=
  tools.filter fun tool => matchesSearch tool searchTerm && matchesFilter filterStatus

/-- `getNoToolsMessage` from `ToolsExplorer.tsx` lines 95-103.  The
comparisons are JavaScript strict equality (`===`) against the literal
strings; an absent status compares unequal to both. -/
def getNoToolsMessage (connectionStatus : Option String) : String :=
  if connectionStatus == some "CONNECTED" then
    "This server is connected but doesn\x27t have any tools available."
  else if connectionStatus == some "FAILED" then
    "Server connection failed. Tools cannot be loaded."
  else
    "Connect to this server to load and view available tools."

/-- The guard on line 94 of `ToolsExplorer.tsx`
(`!tools || tools.length === 0`): after the `Array.isArray` guard, `tools`
is always an array, so this reduces to emptiness of the guarded list. -/
def showsNoToolsState (rawTools : ToolsValue) : Bool :=
  (toolsOf rawTools).isEmpty

/-- The three server actions of `ServerManagement.tsx`
(`'restart' | 'activate' | 'deactivate'`). -/
inductive McpAction where
  | restart
  | activate
  | deactivate
deriving DecidableEq

/-- The literal name of an action, as used in template strings and as the
value stored in the `loading` state. -/
def actionName : McpAction → String
  | McpAction.restart => "restart"
  | McpAction.activate => "activate"
  | McpAction.deactivate => "deactivate"

/-- `status.toUpperCase() === target` guarded by optional chaining:
`undefined?.toUpperCase()` is `undefined`, which is `!==` any string. -/
def statusUpperIs (status : Option String) (target : String) : Bool :=
  match status with
  | none => false
  | some s => jsToUpper s == target

/-- `getStatusColor` from `ServerManagement.tsx` lines 57-69.  `!status` is
JS truthiness: null, undefined and the empty string all short-circuit to
`"outline"`; otherwise the switch is on `status.toUpperCase()`. -/
def getStatusColor (status : Option String) : String :=
  match status with
  | none => "outline"
  | some s =>
      if s == "" then "outline"
      else if jsToUpper s == "CONNECTED" then "default"
      else if jsToUpper s == "DISCONNECTED" then "secondary"
      else if jsToUpper s == "FAILED" then "destructive"
      else "outline"

/-- The icons selectable by `getStatusIcon`. -/
inductive StatusIcon where
  | checkCircle
  | xCircle
  | power
deriving DecidableEq

/-- `getStatusIcon` from `ServerManagement.tsx` lines 71-83. -/
def getStatusIcon (status : Option String) : StatusIcon :=
  match status with
  | none => StatusIcon.power
  | some s =>
      if s == "" then StatusIcon.power
      else if jsToUpper s == "CONNECTED" then StatusIcon.checkCircle
      else if jsToUpper s == "DISCONNECTED" then StatusIcon.xCircle
      else if jsToUpper s == "FAILED" then StatusIcon.xCircle
      else StatusIcon.power

/-- The status-dot background class from `ServerManagement.tsx`
lines 104-113 (chained conditional on `connectionStatus?.toUpperCase()`). -/
def statusDotColor (status : Option String) : String :=
  if statusUpperIs status "CONNECTED" then "bg-green-500"
  else if statusUpperIs status "DISCONNECTED" then "bg-yellow-500"
  else if statusUpperIs status "FAILED" then "bg-red-500"
  else "bg-gray-400"

/-- `isActionDisabled` from `ServerManagement.tsx` lines 85-98.  The
`loading` state only ever holds one of the three action names (all
non-empty, hence truthy), so it is modelled as `Option McpAction`; the
`action` argument is an arbitrary string, with the switch's default branch
returning `false`. -/
def isActionDisabled (loading : Option McpAction) (connectionStatus : Option String)
    (action : String) : Bool :=
  match loading with
  | some _ => true
  | none =>
      if action == "activate" then statusUpperIs connectionStatus "CONNECTED"
      else if action == "deactivate" then !statusUpperIs connectionStatus "CONNECTED"
      else false

/-- The primary button choice (`ServerManagement.tsx` line 131): Deactivate
when `connectionStatus?.toUpperCase() === "CONNECTED"`, Activate otherwise. -/
def primaryAction (connectionStatus : Option String) : McpAction :=
  if statusUpperIs connectionStatus "CONNECTED" then McpAction.deactivate
  else McpAction.activate

/-- The resolution value of the `onAction` promise, classified as
`handleAction` classifies it: an object carrying a string `message`
property, or anything else. -/
inductive ActionResult where
  | objWithMessage (msg : String)
  | otherValue

/-- A rejected promise's error value: an `Error` instance carrying a
message, or any non-`Error` thrown value. -/
inductive JsError where
  | errObj (msg : String)
  | nonErrorThrown

/-- A toast notification: `toast.error` when `isErr`, `toast.success`
otherwise. -/
structure NotifyMsg where
  isErr : Bool
  text : String
deriving DecidableEq

/-- The observable outcome of one `handleAction` run: the final `loading`
state and the toast that was emitted. -/
structure HandlerState where
  loading : Option McpAction
  toast : NotifyMsg

/-- `handleAction` from `ServerManagement.tsx` lines 37-55, as a function of
the awaited collaborator outcome.  The body sets `loading` to the action,
awaits `onAction`, emits a success toast (the response's `message` when
present, else a generic default) or, in the catch block, an error toast
(the `Error`'s message, else a generic default), and the `finally` block
clears `loading`.  The `Except` result type records whether an exception
escapes `handleAction`: the catch block swallows every rejection, so every
branch returns `Except.ok`. -/
def handleAction (action : McpAction) (outcome : Except JsError ActionResult) :
    Except JsError HandlerState :=
  match outcome with
  | Except.ok (ActionResult.objWithMessage m) =>
      Except.ok ⟨none, ⟨false, m⟩⟩
  | Except.ok ActionResult.otherValue =>
      Except.ok ⟨none, ⟨false, "Server " ++ actionName action ++ "d successfully"⟩⟩
  | Except.error (JsError.errObj m) =>
      Except.ok ⟨none, ⟨true, m⟩⟩
  | Except.error JsError.nonErrorThrown =>
      Except.ok ⟨none, ⟨true, "Failed to " ++ actionName action ++ " server"⟩⟩

/-- The transport kinds of the form (`z.enum(["sse", "streamable_http",
"stdio"])`). -/
inductive Transport where
  | sse
  | streamable_http
  | stdio
deriving DecidableEq

/-- One custom-header row of the form (`{ key, value }`). -/
structure HeaderPair where
  key : String
  value : String
deriving DecidableEq

/-- The data submitted through the form, shaped by `serverSchema` in
`ServerFormModal.tsx` lines 26-39: `name` a string, `transport` one of the
three enum values, every other field optional. -/
structure ServerFormData where
  name : String
  description : Option String
  transport : Transport
  url : Option String
  command : Option String
  args : Option String
  requiresOauth : Option Bool
  isPublic : Option Bool
  headers : Option (List HeaderPair)

/-- The validation issues produced by `serverSchema`: the only constraint
beyond the field types (which the `ServerFormData` structure carries) is
`z.string().min(1, "Server name is required")` on `name`. -/
def serverSchemaIssues (d : ServerFormData) : List String :=
  if d.name.length < 1 then ["Server name is required"] else []

/-- Validation accepts the submission iff no issue is produced. -/
def serverSchemaAccepts (d : ServerFormData) : Bool :=
  (serverSchemaIssues d).isEmpty

/-- The value of a server record's `args` property as handled by the
edit-mode reset (`ServerFormModal.tsx` line 103): a string, or a structured
JSON value (array/object) to be `JSON.stringify`ed. -/
inductive ArgsValue where
  | strArgs (s : String)
  | jsonArgs (j : Json)

/-- Escape one character for a JSON string literal. -/
def jsonEscapeChar (c : Char) : List Char :=
  if c == '"' then ['\\', '"']
  else if c == '\\' then ['\\', '\\']
  else if c == '\n' then ['\\', 'n']
  else if c == '\t' then ['\\', 't']
  else if c == '\r' then ['\\', 'r']
  else [c]

/-- Quote a string as a JSON string literal. -/
def jsonQuote (s : String) : String :=
  String.mk ('"' :: (s.data.flatMap jsonEscapeChar) ++ ['"'])

/-- Model of `JSON.stringify` (without an indent argument) on the `Json`
values, as used on a non-string `server.args`. -/
def jsonStringify : Json → String
  | Json.jnull => "null"
  | Json.jbool true => "true"
  | Json.jbool false => "false"
  | Json.jnum n => toString n
  | Json.jstr s => jsonQuote s
  | Json.jarr elems =>
      "[" ++ String.intercalate "," (elems.attach.map fun e => jsonStringify e.val) ++ "]"
  | Json.jobj fields =>
      "\x7b" ++
        String.intercalate ","
          (fields.attach.map fun f =>
            jsonQuote f.val.fst ++ ":" ++ jsonStringify f.val.snd) ++
        "\x7d"
decreasing_by
  · simp only [Json.jarr.sizeOf_spec]
    have h := List.sizeOf_lt_of_mem e.prop
    omega
  · simp only [Json.jobj.sizeOf_spec]
    have h2 := List.sizeOf_lt_of_mem f.prop
    have h1 : sizeOf f.val.snd < sizeOf f.val := by
      obtain ⟨a, b⟩ := f.val
      simp
    omega

/-- `server.args ? (typeof server.args === 'string' ? server.args :
JSON.stringify(server.args)) : ""` (`ServerFormModal.tsx` line 103).  JS
truthiness: absent args and the empty string are falsy; every structured
value is truthy. -/
def serializeArgsField : Option ArgsValue → String
  | none => ""
  | some (ArgsValue.strArgs s) => if s == "" then "" else s
  | some (ArgsValue.jsonArgs j) => jsonStringify j

/-- The server record consumed by the components.  Field shapes follow their
use in the three components; `headers` is the backend record's header list
(present in the record shape per the data model, but never read by the
form's edit-mode reset). -/
structure McpServer where
  name : String
  description : Option String
  transport : Transport
  url : Option String
  command : Option String
  args : Option ArgsValue
  requiresOauth2 : Option Bool
  isPublic : Option Bool
  connectionStatus : Option String
  tools : ToolsValue
  headers : List HeaderPair

/-- The form's field values as held by react-hook-form. -/
structure FormValues where
  name : String
  description : String
  transport : Transport
  url : String
  command : String
  args : String
  requiresOauth : Bool
  isPublic : Bool
  headers : List HeaderPair

/-- The default values passed to `useForm` and used by the add-mode reset
(`ServerFormModal.tsx` lines 70-80 and 110-120). -/
def defaultFormValues : FormValues :=
  { name := ""
    description := ""
    transport := Transport.sse
    url := ""
    command := ""
    args := ""
    requiresOauth := false
    isPublic := false
    headers := [] }

/-- The values the edit-mode reset passes (`ServerFormModal.tsx`
lines 97-107): every field from the server record (`||`-defaulted), args
serialized, and `headers` the literal empty list. -/
def editInitialValues (server : McpServer) : FormValues :=
  { name := server.name
    description := server.description.getD ""
    transport := server.transport
    url := server.url.getD ""
    command := server.command.getD ""
    args := serializeArgsField server.args
    requiresOauth := server.requiresOauth2.getD false
    isPublic := server.isPublic.getD false
    headers := [] }

/-- The modal's mode (`'add' | 'edit'`). -/
inductive Mode where
  | add
  | edit
deriving DecidableEq

/-- The local modal UI state set by the open effect: the form values, the
transport radio mirror, and the headers disclosure. -/
structure ModalState where
  values : FormValues
  transportType : Transport
  showHeaders : Bool

/-- The reset effect on open (`ServerFormModal.tsx` lines 94-125): in edit
mode with a (truthy) server, reset to the record's values; otherwise reset
to the defaults; in both cases collapse the headers disclosure.  The
previous state is discarded entirely, which models reset-on-reopen. -/
def openModal (mode : Mode) (server : Option McpServer) : ModalState :=
  match mode, server with
  | Mode.edit, some s =>
      { values := editInitialValues s
        transportType := s.transport
        showHeaders := false }
  | _, _ =>
      { values := defaultFormValues
        transportType := Transport.sse
        showHeaders := false }

/-- The observable outcome of one `handleFormSubmit` run: whether the dialog
is still open, the toast emitted, whether the error was logged, and the form
values after the run. -/
structure FormSubmitState where
  dialogOpen : Bool
  toast : NotifyMsg
  logged : Bool
  values : FormValues

/-- `handleFormSubmit` from `ServerFormModal.tsx` lines 127-136, as a
function of the awaited `onSubmit` outcome.  On resolution: `onClose()` and
a mode-dependent success toast.  On rejection: the dialog is not closed, the
error is logged and a mode-dependent generic failure toast is shown; the
form values are never reset in either branch.  Every branch returns
`Except.ok`: the catch swallows the rejection. -/
def handleFormSubmit (mode : Mode) (values : FormValues)
    (outcome : Except JsError Unit) : Except JsError FormSubmitState :=
  match outcome with
  | Except.ok _ =>
      Except.ok
        { dialogOpen := false
          toast := ⟨false,
            "Server " ++ (if mode == Mode.add then "added" else "updated") ++
              " successfully"⟩
          logged := false
          values := values }
  | Except.error _ =>
      Except.ok
        { dialogOpen := true
          toast := ⟨true,
            "Failed to " ++ (if mode == Mode.add then "add" else "update") ++
              " server"⟩
          logged := true
          values := values }

/-- A string whose uppercasing is empty is empty. -/
theorem jsToUpper_eq_empty (s : String) (h : jsToUpper s = "") : s = "" := by
  have hd : s.data.map Char.toUpper = ([] : List Char) := congrArg String.data h
  have hnil : s.data = [] := List.map_eq_nil_iff.mp hd
  cases s with
  | mk data =>
      cases hnil
      rfl

/-- Strings with the same uppercasing agree on emptiness. -/
theorem beq_empty_of_jsToUpper_eq (s t : String) (h : jsToUpper s = jsToUpper t) :
    (s == "") = (t == "") := by
  by_cases hs : s = ""
  · subst hs
    have ht : t = "" := jsToUpper_eq_empty t h.symm
    subst ht
    rfl
  · have ht : ¬ t = "" := by
      intro ht
      subst ht
      exact hs (jsToUpper_eq_empty s h)
    simp [hs, ht]

/-- `statusUpperIs` only looks at the uppercased status. -/
theorem statusUpperIs_congr (s t : String) (h : jsToUpper s = jsToUpper t)
    (target : String) : statusUpperIs (some s) target = statusUpperIs (some t) target := by
  simp only [statusUpperIs, h]

/-- `matchesFilter` holds exactly for the `all` and `available` selections. -/
theorem matchesFilter_eq_true_iff (f : FilterStatus) :
    matchesFilter f = true ↔ (f = FilterStatus.all ∨ f = FilterStatus.available) := by
  cases f <;> simp [matchesFilter]

/-- A string's length is zero exactly when it is the empty string. -/
theorem string_length_zero_iff (s : String) : s.length = 0 ↔ s = "" := by
  constructor
  · intro h
    cases s with
    | mk data =>
        cases data with
        | nil => rfl
        | cons c cs => simp [String.length] at h
  · intro h
    subst h
    rfl

/-- C9: for every list of tools, search text and filter selection, a tool is
in the filtered result iff its lower-cased name or description contains the
lower-cased search text and the filter selection is `all` or `available`;
and on the tools `search_users` / `create_ticket` with search text `user`
the result is exactly the first tool. -/
theorem c9_filteredTools_characterization :
    (∀ (tools : List Tool) (searchTerm : String) (f : FilterStatus) (tool : Tool),
      tool ∈ filteredTools tools searchTerm f ↔
        tool ∈ tools ∧ matchesSearch tool searchTerm = true ∧
          (f = FilterStatus.all ∨ f = FilterStatus.available)) ∧
    filteredTools
      [⟨"search_users", "Find users", SchemaValue.nullVal⟩,
       ⟨"create_ticket", "Open ticket", SchemaValue.nullVal⟩]
      "user" FilterStatus.all =
      [⟨"search_users", "Find users", SchemaValue.nullVal⟩] := by
  constructor
  · intro tools searchTerm f tool
    unfold filteredTools
    rw [List.mem_filter, Bool.and_eq_true, matchesFilter_eq_true_iff]
  · rfl

/-- C1 counterexample: with a single tool matching the empty search text,
the `unavailable` filter selection yields the empty list while `available`
keeps the tool, so the two result sets differ. -/
theorem c1_unavailable_equals_available_counterexample :
    filteredTools [⟨"search_users", "Find users", SchemaValue.nullVal⟩] ""
        FilterStatus.unavailable ≠
      filteredTools [⟨"search_users", "Find users", SchemaValue.nullVal⟩] ""
        FilterStatus.available := by
  intro h
  rw [show filteredTools [⟨"search_users", "Find users", SchemaValue.nullVal⟩] ""
        FilterStatus.unavailable = [] from rfl,
      show filteredTools [⟨"search_users", "Find users", SchemaValue.nullVal⟩] ""
        FilterStatus.available =
        [⟨"search_users", "Find users", SchemaValue.nullVal⟩] from rfl] at h
  exact List.noConfusion h

/-- C1 amended: the `unavailable` filter selection excludes every tool, so
the filtered result is always the empty list (it agrees with `available`
only when no tool matches the search). -/
theorem c1_unavailable_filter_empty
    (tools : List Tool) (searchTerm : String) :
    filteredTools tools searchTerm FilterStatus.unavailable = [] := by
  unfold filteredTools
  induction tools with
  | nil => rfl
  | cons t ts ih =>
      rw [List.filter_cons]
      have hp : (matchesSearch t searchTerm && matchesFilter FilterStatus.unavailable)
          = false := by
        simp [matchesFilter]
      rw [hp]
      simpa using ih

/-- C2 counterexample: `getNoToolsMessage` in ToolsExplorer compares
`connectionStatus` with JavaScript strict equality; the status `connected`
is a letter-case variant of `CONNECTED` (their uppercasings agree) yet
selects a different empty-state message, so not every status comparison in
the three components is case-insensitive. -/
theorem c2_case_insensitivity_counterexample :
    jsToUpper "connected" = jsToUpper "CONNECTED" ∧
    getNoToolsMessage (some "connected") ≠ getNoToolsMessage (some "CONNECTED") := by
  constructor
  · rfl
  · decide

/-- C2 amended: every `connectionStatus` comparison in ServerManagement
(badge color, badge icon, status dot, primary button choice, action-disable
decisions) is case-insensitive — letter-case variants of a status yield the
same outcome — while ToolsExplorer's empty-state message selection compares
with case-sensitive strict equality. -/
theorem c2_server_management_case_insensitive
    (s t : String) (h : jsToUpper s = jsToUpper t) :
    getStatusColor (some s) = getStatusColor (some t) ∧
    getStatusIcon (some s) = getStatusIcon (some t) ∧
    statusDotColor (some s) = statusDotColor (some t) ∧
    primaryAction (some s) = primaryAction (some t) ∧
    (∀ (loading : Option McpAction) (action : String),
      isActionDisabled loading (some s) action =
        isActionDisabled loading (some t) action) := by
  have hb : (s == "") = (t == "") := beq_empty_of_jsToUpper_eq s t h
  refine ⟨?_, ?_, ?_, ?_, ?_⟩
  · simp only [getStatusColor, h, hb]
  · simp only [getStatusIcon, h, hb]
  · simp only [statusDotColor, statusUpperIs, h]
  · simp only [primaryAction, statusUpperIs, h]
  · intro loading action
    cases loading with
    | some a => rfl
    | none => simp only [isActionDisabled, statusUpperIs, h]

/-- C2 witness: the amended case-insensitivity theorem applied to the
concrete letter-case pair `connected` / `CONNECTED`. -/
theorem c2_server_management_case_insensitive_witness :
    getStatusColor (some "connected") = getStatusColor (some "CONNECTED") :=
  (c2_server_management_case_insensitive "connected" "CONNECTED" rfl).1

/-- C3: while an action is in flight every action control is disabled; with
no action in flight, `activate` is disabled exactly when the uppercased
status is `CONNECTED`, `deactivate` exactly when it is not, and `restart`
is never disabled by status alone. -/
theorem c3_action_disable_policy :
    (∀ (inflight : McpAction) (status : Option String) (action : String),
      isActionDisabled (some inflight) status action = true) ∧
    (∀ status : Option String,
      isActionDisabled none status "activate" = statusUpperIs status "CONNECTED") ∧
    (∀ status : Option String,
      isActionDisabled none status "deactivate" = !statusUpperIs status "CONNECTED") ∧
    (∀ status : Option String,
      isActionDisabled none status "restart" = false) :=
  ⟨fun _ _ _ => rfl, fun _ => rfl, fun _ => rfl, fun _ => rfl⟩

/-- C4: for every outcome of the `onAction` collaborator, `handleAction`
completes without an escaping exception and with the in-flight `loading`
marker cleared; a rejection with `Error("timeout")` yields an error toast
whose text contains `timeout`, the marker cleared, and no re-thrown error. -/
theorem c4_handleAction_clears_loading :
    (∀ (action : McpAction) (outcome : Except JsError ActionResult),
      ∃ st : HandlerState,
        handleAction action outcome = Except.ok st ∧ st.loading = none) ∧
    (∃ st : HandlerState,
      handleAction McpAction.restart (Except.error (JsError.errObj "timeout")) =
        Except.ok st ∧
      st.loading = none ∧ st.toast.isErr = true ∧
      strIncludes st.toast.text "timeout" = true) := by
  constructor
  · intro action outcome
    cases outcome with
    | ok r => cases r <;> exact ⟨_, rfl, rfl⟩
    | error e => cases e <;> exact ⟨_, rfl, rfl⟩
  · exact ⟨_, rfl, rfl, rfl, rfl⟩

/-- C5: the form schema accepts a submission exactly when `name` is
non-empty; in particular a `stdio` submission with empty `command` and a
non-stdio (`sse`) submission with empty `url` both pass validation. -/
theorem c5_validation_accepts_iff_name_nonempty :
    (∀ d : ServerFormData, serverSchemaAccepts d = true ↔ d.name ≠ "") ∧
    serverSchemaAccepts
      { name := "stdio server", description := none, transport := Transport.stdio,
        url := none, command := some "", args := some "", requiresOauth := none,
        isPublic := none, headers := none } = true ∧
    serverSchemaAccepts
      { name := "sse server", description := none, transport := Transport.sse,
        url := some "", command := none, args := none, requiresOauth := none,
        isPublic := none, headers := none } = true := by
  refine ⟨?_, rfl, rfl⟩
  intro d
  unfold serverSchemaAccepts serverSchemaIssues
  by_cases h : d.name.length < 1
  · have hz : d.name.length = 0 := Nat.lt_one_iff.mp h
    have he : d.name = "" := (string_length_zero_iff d.name).mp hz
    simp [h, he]
  · have hz : d.name.length ≠ 0 := by omega
    have he : d.name ≠ "" := fun contra =>
      hz ((string_length_zero_iff d.name).mpr contra)
    simp [h, he]

/-- C6: the edit-mode open effect populates every form field from the
server record (description, url, command defaulted to the empty string,
args run through the serializer, flags defaulted to false) except
`headers`, which is the empty list even when the record's headers are
non-empty; the serializer passes strings through and stringifies structured
args; and the headers disclosure is collapsed on every open. -/
theorem c6_edit_mode_reset :
    (∀ server : McpServer,
      (openModal Mode.edit (some server)).values =
        { name := server.name
          description := server.description.getD ""
          transport := server.transport
          url := server.url.getD ""
          command := server.command.getD ""
          args := serializeArgsField server.args
          requiresOauth := server.requiresOauth2.getD false
          isPublic := server.isPublic.getD false
          headers := [] }) ∧
    (∀ server : McpServer, server.headers ≠ [] →
      (openModal Mode.edit (some server)).values.headers = []) ∧
    (∀ s : String,
      serializeArgsField (some (ArgsValue.strArgs s)) = if s == "" then "" else s) ∧
    (∀ j : Json, serializeArgsField (some (ArgsValue.jsonArgs j)) = jsonStringify j) ∧
    (∀ (mode : Mode) (server : Option McpServer),
      (openModal mode server).showHeaders = false) := by
  refine ⟨fun _ => rfl, fun _ _ => rfl, fun _ => rfl, fun _ => rfl, ?_⟩
  intro mode server
  cases mode <;> cases server <;> rfl

/-- C6 witness: the reset theorem applied to a concrete server record whose
backend `headers` list is non-empty still initializes the form's headers to
the empty list. -/
theorem c6_edit_mode_reset_witness :
    (openModal Mode.edit (some
      { name := "srv", description := some "d", transport := Transport.sse,
        url := some "https://mcp.example.com", command := none, args := none,
        requiresOauth2 := some false, isPublic := some false,
        connectionStatus := some "CONNECTED", tools := ToolsValue.arrVal [],
        headers := [⟨"Authorization", "Bearer token123"⟩] })).values.headers = [] :=
  c6_edit_mode_reset.2.1
    { name := "srv", description := some "d", transport := Transport.sse,
      url := some "https://mcp.example.com", command := none, args := none,
      requiresOauth2 := some false, isPublic := some false,
      connectionStatus := some "CONNECTED", tools := ToolsValue.arrVal [],
      headers := [⟨"Authorization", "Bearer token123"⟩] }
    (by decide)

/-- C7: `parseSchema` returns a structured schema value unchanged, runs a
string schema through the JSON parser (total, so no exception escapes, and
a parse failure yields `none`); concretely the string
`{"type":"object"}` parses to the object with the single field
`type ↦ "object"` and the string `{bad json` yields `none`. -/
theorem c7_parseSchema_behavior :
    (∀ j : Json, parseSchema (SchemaValue.objectVal j) = some j) ∧
    (∀ s : String, parseSchema (SchemaValue.stringVal s) = jsonParse s) ∧
    parseSchema (SchemaValue.stringVal "\x7b\"type\":\"object\"\x7d") =
      some (Json.jobj [("type", Json.jstr "object")]) ∧
    parseSchema (SchemaValue.stringVal "\x7bbad json") = none :=
  ⟨fun _ => rfl, fun _ => rfl, rfl, rfl⟩

/-- C8: `handleFormSubmit` never lets the rejection escape and never resets
the entered values; on resolution it closes the dialog with the
mode-parameterized success toast, and on rejection it keeps the dialog
open, logs the error and emits the mode-parameterized generic failure
toast. -/
theorem c8_handleFormSubmit_outcomes :
    (∀ (mode : Mode) (values : FormValues) (outcome : Except JsError Unit),
      ∃ st : FormSubmitState,
        handleFormSubmit mode values outcome = Except.ok st ∧ st.values = values) ∧
    (∀ values : FormValues,
      handleFormSubmit Mode.add values (Except.ok ()) =
        Except.ok ⟨false, ⟨false, "Server added successfully"⟩, false, values⟩) ∧
    (∀ values : FormValues,
      handleFormSubmit Mode.edit values (Except.ok ()) =
        Except.ok ⟨false, ⟨false, "Server updated successfully"⟩, false, values⟩) ∧
    (∀ (values : FormValues) (e : JsError),
      handleFormSubmit Mode.add values (Except.error e) =
        Except.ok ⟨true, ⟨true, "Failed to add server"⟩, true, values⟩) ∧
    (∀ (values : FormValues) (e : JsError),
      handleFormSubmit Mode.edit values (Except.error e) =
        Except.ok ⟨true, ⟨true, "Failed to update server"⟩, true, values⟩) := by
  refine ⟨?_, fun _ => rfl, fun _ => rfl, fun _ _ => rfl, fun _ _ => rfl⟩
  intro mode values outcome
  cases outcome with
  | ok u => exact ⟨_, rfl, rfl⟩
  | error e => exact ⟨_, rfl, rfl⟩

/-- C10: every non-array `server.tools` value is normalized to the empty
tool list by the `Array.isArray` guard, so the component renders the
no-tools empty state and never filters or iterates the non-array value. -/
theorem c10_non_array_tools_safe :
    ∀ rawTools : ToolsValue,
      (∀ ts : List Tool, rawTools ≠ ToolsValue.arrVal ts) →
      toolsOf rawTools = [] ∧ showsNoToolsState rawTools = true := by
  intro raw h
  cases raw with
  | arrVal ts => exact absurd rfl (h ts)
  | absent => exact ⟨rfl, rfl⟩
  | nullVal => exact ⟨rfl, rfl⟩
  | objVal => exact ⟨rfl, rfl⟩
  | strVal s => exact ⟨rfl, rfl⟩

/-- C10 witness: the guard theorem applied to the concrete non-array value
`null`. -/
theorem c10_non_array_tools_safe_witness :
    toolsOf ToolsValue.nullVal = [] ∧ showsNoToolsState ToolsValue.nullVal = true :=
  c10_non_array_tools_safe ToolsValue.nullVal (fun _ h => ToolsValue.noConfusion h)
